import Mathlib

/-!
Verification of the vmup SSH-config manager (src/vmup/vmup.py and
src/vmup/gcp_utils.py) against its natural-language specification.

The SSH config file is modelled as the list of its lines, each line a
`List Char` (the result of Python `readlines`, so lines normally keep a
trailing newline).  The Python regular expressions used by the source are
small and fixed, so each one is embedded as an executable matcher with the
exact semantics of Python `re` on that pattern (anchored `re.match`,
greedy quantifiers with backtracking, `$` also matching before a final
newline, `.` not matching a newline, and `re.IGNORECASE` where the source
passes it).
-/

namespace Vmup

/-- Python `\s` on the ASCII range: space, tab, newline, carriage return,
vertical tab, form feed. -/
def pySpace (c : Char) : Bool :=
  c = ' ' || c = '\t' || c = '\n' || c = '\r' || c = '\x0b' || c = '\x0c'

/-- Consume `pat` case-insensitively (both sides lowercased, as
`re.IGNORECASE` does) from the front of `s`; return the rest on success. -/
def stripCI : List Char → List Char → Option (List Char)
  | [], s => some s
  | _ :: _, [] => none
  | p :: ps, c :: cs => if p.toLower = c.toLower then stripCI ps cs else none

/-- Consume `pat` case-sensitively from the front of `s`. -/
def stripCS : List Char → List Char → Option (List Char)
  | [], s => some s
  | _ :: _, [] => none
  | p :: ps, c :: cs => if p = c then stripCS ps cs else none

/-- `lit` then `\s*$` at `y` (with `$` also matching just before a final
newline, which is itself whitespace, this is: the rest is all whitespace). -/
def litSpacesCI (lit y : List Char) : Bool :=
  match stripCI lit y with
  | some t => t.all pySpace
  | none => false

/-- Case-sensitive version of `litSpacesCI`. -/
def litSpacesCS (lit y : List Char) : Bool :=
  match stripCS lit y with
  | some t => t.all pySpace
  | none => false

/-- Match `\s*lit\s*$` at `y`, case-insensitively: either the literal
starts here and only whitespace follows, or consume one whitespace
character and retry (full backtracking semantics). -/
def tailMatchCI (lit : List Char) : List Char → Bool
  | [] => litSpacesCI lit []
  | c :: cs => litSpacesCI lit (c :: cs) || (pySpace c && tailMatchCI lit cs)

/-- Case-sensitive version of `tailMatchCI`. -/
def tailMatchCS (lit : List Char) : List Char → Bool
  | [] => litSpacesCS lit []
  | c :: cs => litSpacesCS lit (c :: cs) || (pySpace c && tailMatchCS lit cs)

/-- `re.match(r'^\s*Host\s+', line, re.IGNORECASE)` (vmup.py line 121). -/
def isHostLine (l : List Char) : Bool :=
  match stripCI "Host".toList (l.dropWhile pySpace) with
  | some (c :: _) => pySpace c
  | _ => false

/-- `re.match(r'^\s*Host\s+' + re.escape(host) + r'\s*$', line, re.IGNORECASE)`
(vmup.py line 123): the Host declaration whose single token equals `host`
case-insensitively, with no trailing tokens. -/
def targetHostMatch (host l : List Char) : Bool :=
  match stripCI "Host".toList (l.dropWhile pySpace) with
  | some (c :: cs) => pySpace c && tailMatchCI host cs
  | _ => false

/-- `re.match(rf'^\s*Host\s+{re.escape(new_name)}\s*$', line)` (vmup.py
line 166).  Note: no `re.IGNORECASE` flag in the source, so this check is
case-sensitive, including on the `Host` keyword. -/
def addHostMatch (name l : List Char) : Bool :=
  match stripCS "Host".toList (l.dropWhile pySpace) with
  | some (c :: cs) => pySpace c && tailMatchCS name cs
  | _ => false

/-- `re.match(r'^\s*HostName\s+', line, re.IGNORECASE)` (vmup.py line 127). -/
def isHostNameLineCI (l : List Char) : Bool :=
  match stripCI "HostName".toList (l.dropWhile pySpace) with
  | some (c :: _) => pySpace c
  | _ => false

/-- `re.sub(r'(^\s*HostName\s+).*', r'\g<1>' + new_ip, line)` (vmup.py
line 128).  Case-sensitive (no flag).  On a match, group 1 keeps the
leading whitespace, the literal `HostName` and the whitespace after it;
`.*` greedily swallows the rest of the line up to (not including) the
first newline, which survives the substitution.  With no match the line
is returned unchanged. -/
def rewriteLine (newIp l : List Char) : List Char :=
  match stripCS "HostName".toList (l.dropWhile pySpace) with
  | none => l
  | some r2 =>
    if (r2.takeWhile pySpace).isEmpty then l
    else
      l.takeWhile pySpace ++ ("HostName".toList ++ (r2.takeWhile pySpace ++
        (newIp ++ (r2.dropWhile pySpace).dropWhile (fun c => !(c == '\n')))))

/-- One step of the `in_target_host_block` state in
`VMManager.update_hostname`: a Host declaration re-decides the flag,
any other line leaves it. -/
def updState (host : List Char) (t : Bool) (l : List Char) : Bool :=
  cond (isHostLine l) (targetHostMatch host l) t

/-- The scan loop of `VMManager.update_hostname` (vmup.py lines 120-131):
threads `(host_found, in_target_host_block)` through the lines and
rewrites each HostName line seen while inside the target block. -/
def updGo (host ip : List Char) : Bool → Bool → List (List Char) → (Bool × Bool) × List (List Char)
  | f, t, [] => ((f, t), [])
  | f, t, l :: ls =>
    ((updGo host ip (cond (isHostLine l) (f || targetHostMatch host l) f) (updState host t l) ls).1,
     cond (updState host t l && isHostNameLineCI l) (rewriteLine ip l) l ::
       (updGo host ip (cond (isHostLine l) (f || targetHostMatch host l) f) (updState host t l) ls).2)

/-- `VMManager.update_hostname` on the in-memory line list: `none` means
"Host not found", the file is not written; `some out` means `out` is
written back and `True` is returned. -/
def update_hostname (host ip : List Char) (lines : List (List Char)) : Option (List (List Char)) :=
  if (updGo host ip false false lines).1.1 then some (updGo host ip false false lines).2 else none

/-- `current_host` update in `VMManager.list_hostnames`: capture group of
`re.match(r'^\s*Host\s+(.+)', line, re.IGNORECASE)` (vmup.py line 92).
The helpers below realise the greedy `\s+(.+)` with backtracking. -/
def capTry : List Char → Option (List Char)
  | [] => none
  | c :: cs => if c = '\n' then none else some ((c :: cs).takeWhile (fun x => !(x == '\n')))

/-- Match `\s*(.+)` at `y`, preferring to consume more whitespace first
(greedy `\s*`), falling back to capturing at the current position. -/
def capSpaces : List Char → Option (List Char)
  | [] => none
  | c :: cs =>
    if pySpace c then
      match capSpaces cs with
      | some r => some r
      | none => capTry (c :: cs)
    else capTry (c :: cs)

/-- Capture of `^\s*{kw}\s+(.+)` with `re.IGNORECASE`. -/
def kwCapture (kw l : List Char) : Option (List Char) :=
  match stripCI kw (l.dropWhile pySpace) with
  | some (c :: cs) => if pySpace c then capSpaces cs else none
  | _ => none

/-- Host-name token captured by a `Host` declaration (vmup.py line 92). -/
def hostCapture (l : List Char) : Option (List Char) := kwCapture "Host".toList l

/-- IP captured by a `HostName` line (vmup.py line 95). -/
def hostNameCapture (l : List Char) : Option (List Char) := kwCapture "HostName".toList l

/-- `current_host` after seeing one line (vmup.py lines 92-94). -/
def updCur (cur : Option (List Char)) (l : List Char) : Option (List Char) :=
  match hostCapture l with
  | some h => some h
  | none => cur

/-- The scan loop of `VMManager.list_hostnames` (vmup.py lines 91-97):
whenever a HostName line is seen while `current_host` is set, emit
`f"{current_host} -> {ip}"`. -/
def listGo (cur : Option (List Char)) : List (List Char) → List (List Char)
  | [] => []
  | l :: ls =>
    match hostNameCapture l, updCur cur l with
    | some ip, some h => (h ++ (" -> ".toList ++ ip)) :: listGo (updCur cur l) ls
    | _, _ => listGo (updCur cur l) ls

/-- `VMManager.list_hostnames` on the in-memory line list. -/
def list_hostnames (lines : List (List Char)) : List (List Char) := listGo none lines

/-- The block appended by `VMManager.add_host` (vmup.py lines 154-162),
split at the newlines of the f-string template: a leading blank line,
then `Host {name}`, `HostName 1.1.1.1`, `IdentityFile`,
`UserKnownHostsFile`, `IdentitiesOnly=yes`, `CheckHostIP=no`,
`User {user}`. -/
def entryLines (name user idf khf : List Char) : List (List Char) :=
  [['\n'],
   "Host ".toList ++ (name ++ ['\n']),
   "    HostName 1.1.1.1\n".toList,
   "    IdentityFile ".toList ++ (idf ++ ['\n']),
   "    UserKnownHostsFile=".toList ++ (khf ++ ['\n']),
   "    IdentitiesOnly=yes\n".toList,
   "    CheckHostIP=no\n".toList,
   "    User ".toList ++ (user ++ ['\n'])]

/-- `VMManager.add_host` on the in-memory line list: `none` means the
"already exists" failure (no write), `some out` means `out` is the new
file content and `True` is returned. -/
def add_host (name user idf khf : List Char) (lines : List (List Char)) : Option (List (List Char)) :=
  if lines.any (fun l => addHostMatch name l) then none
  else some (lines ++ entryLines name user idf khf)

/-! ## Specification-side characterisations of the scans -/

/-- The `in_target_host_block` state that holds while the scan is looking
at line `i` (i.e. after the Host-declaration update for line `i` itself),
computed directly from the prefix of the file rather than by threading
state: the most recent Host declaration at or before `i` decides it. -/
def inTargetFrom (host : List Char) (t : Bool) : List (List Char) → Nat → Bool
  | [], _ => t
  | l :: _, 0 => updState host t l
  | l :: ls, i + 1 => inTargetFrom host (updState host t l) ls i

/-- `inTargetFrom` started outside any block, as `update_hostname` does. -/
def inTargetAt (host : List Char) (lines : List (List Char)) (i : Nat) : Bool :=
  inTargetFrom host false lines i

/-- No line of the file is simultaneously inside the target block and a
HostName line: the scan of `update_hostname` rewrites nothing. -/
def noRewrite (host : List Char) (t : Bool) : List (List Char) → Bool
  | [] => true
  | l :: ls => !(updState host t l && isHostNameLineCI l) && noRewrite host (updState host t l) ls

/-- `current_host` in effect while `list_hostnames` looks at line `i`
(after the Host update for line `i`), computed from the prefix. -/
def curFrom (cur : Option (List Char)) : List (List Char) → Nat → Option (List Char)
  | [], _ => cur
  | l :: _, 0 => updCur cur l
  | l :: ls, i + 1 => curFrom (updCur cur l) ls i

/-- Index-wise specification of the listing: line `i` emits the pair
`"{host} -> {ip}"` exactly when it is a HostName line and a current host
is in effect there. -/
def listSpecFrom (cur : Option (List Char)) (lines : List (List Char)) : List (List Char) :=
  (List.range lines.length).filterMap fun i =>
    match hostNameCapture (lines.getD i []), curFrom cur lines i with
    | some ip, some h => some (h ++ (" -> ".toList ++ ip))
    | _, _ => none

/-- The last five lines of an appended block, unchanged by any update. -/
def restEntryOut (user idf khf : List Char) : List (List Char) :=
  ["    IdentityFile ".toList ++ (idf ++ ['\n']),
   "    UserKnownHostsFile=".toList ++ (khf ++ ['\n']),
   "    IdentitiesOnly=yes\n".toList,
   "    CheckHostIP=no\n".toList,
   "    User ".toList ++ (user ++ ['\n'])]

/-- The appended block after its placeholder HostName got rewritten. -/
def entryOut (name ip user idf khf : List Char) : List (List Char) :=
  ['\n'] :: ("Host ".toList ++ (name ++ ['\n'])) ::
    ("    HostName ".toList ++ (ip ++ ['\n'])) :: restEntryOut user idf khf

/-! ## File-system layer

The on-disk state is `Option (List (List Char))`: `none` is a missing
file, `some lines` its content as the lines `readlines` returns.  A
Python operation that raises is modelled by `PyResult.exn`. -/

/-- Result of a Python call: a value, or an uncaught exception. -/
inductive PyResult (α : Type) where
  | ok : α → PyResult α
  | exn : PyResult α
deriving DecidableEq

/-- `VMManager.list_hostnames` (vmup.py lines 75-99): a missing file is
reported and yields the empty list. -/
def list_hostnames_fs : Option (List (List Char)) → List (List Char)
  | none => []
  | some lines => list_hostnames lines

/-- `VMManager.update_hostname` (vmup.py lines 101-141): a missing file
is reported and yields `False` with no write; "Host not found" yields
`False` with no write; otherwise the scanned lines are written back. -/
def update_hostname_fs (host ip : List Char) : Option (List (List Char)) → Bool × Option (List (List Char))
  | none => (false, none)
  | some lines =>
    match update_hostname host ip lines with
    | some out => (true, some out)
    | none => (false, some lines)

/-- `VMManager.add_host` (vmup.py lines 143-174): the file is opened for
reading with no existence check, so a missing file raises
`FileNotFoundError`. -/
def add_host_fs (name user idf khf : List Char) : Option (List (List Char)) → PyResult (Bool × Option (List (List Char)))
  | none => PyResult.exn
  | some lines =>
    match add_host name user idf khf lines with
    | some out => PyResult.ok (true, some out)
    | none => PyResult.ok (false, some lines)

/-! ## Cloud Control Client and orchestrator -/

/-- Outcome of the external `gcloud` subprocess, used as an oracle:
exit status and the captured output and error streams. -/
structure CmdOutcome where
  exitCode : Nat
  outText : List Char
  errText : List Char

/-- Python `str.strip()` (ASCII whitespace). -/
def pyStrip (s : List Char) : List Char :=
  ((s.dropWhile pySpace).reverse.dropWhile pySpace).reverse

/-- `gcp_utils.run_command` (gcp_utils.py lines 29-35): `check=True`
raises `CalledProcessError` on a non-zero exit status, which is caught
and turned into `"Error: " + e.stderr.strip()`; on a zero exit status the
stripped stdout is returned. -/
def run_command (o : CmdOutcome) : List Char :=
  if o.exitCode = 0 then pyStrip o.outText
  else "Error: ".toList ++ pyStrip o.errText

/-- Python `pat in s` substring test helper. -/
def startsWith : List Char → List Char → Bool
  | [], _ => true
  | _ :: _, [] => false
  | p :: ps, c :: cs => (p == c) && startsWith ps cs

/-- Python `pat in s`: `pat` occurs as a contiguous substring of `s`. -/
def hasSub (pat : List Char) : List Char → Bool
  | [] => startsWith pat []
  | c :: cs => startsWith pat (c :: cs) || hasSub pat cs

/-- `"Error" in text`, the failure test used by `start_vm`
(vmup.py lines 190 and 197). -/
def hasErr (s : List Char) : Bool := hasSub "Error".toList s

/-- `VMManager.start_vm` after a successful instance start (vmup.py
lines 194-211): check the IP text for "Error", try `add_host` (its
boolean result is discarded; an exception is caught by the surrounding
`try` and turns into `False`), then `update_hostname` decides the
result. -/
def startVmTail (ipRes name user idf khf : List Char) (file : Option (List (List Char))) : Bool × Option (List (List Char)) :=
  if hasErr ipRes then (false, file)
  else
    match add_host_fs name user idf khf file with
    | PyResult.exn => (false, file)
    | PyResult.ok r => update_hostname_fs name ipRes r.2

/-- `VMManager.start_vm` (vmup.py lines 176-215) with the two cloud calls
replaced by their returned texts `startRes` and `ipRes` (project and zone
are assumed resolved; they only parametrise the external calls). -/
def start_vm (startRes ipRes name user idf khf : List Char) (file : Option (List (List Char))) : Bool × Option (List (List Char)) :=
  if hasErr startRes then (false, file)
  else startVmTail ipRes name user idf khf file

/-! ## Well-formedness of a file as a list of lines -/

/-- `s` contains no newline. -/
def noNl (s : List Char) : Bool := s.all (fun c => !(c == '\n'))

/-- A line as produced by `readlines` on a newline-terminated file:
nonempty, ends with a newline, no interior newline. -/
def wfLine (l : List Char) : Bool :=
  !l.isEmpty && (l.getLast? == some '\n') && noNl l.dropLast

/-- Every line of the file is well-formed. -/
def wfLines (lines : List (List Char)) : Bool := lines.all wfLine

/-- The two-block example configuration of the specification. -/
def cfgAB : List (List Char) :=
  ["Host a\n".toList, "HostName 10.0.0.1\n".toList,
   "Host b\n".toList, "HostName 10.0.0.2\n".toList]

/-! ## Basic lemmas about the matchers -/

theorem pySpace_sp : pySpace ' ' = true := by decide

theorem pySpace_H : pySpace 'H' = false := by decide

theorem stripCI_self (s : List Char) : ∀ t, stripCI s (s ++ t) = some t := by
  induction s with
  | nil => intro t; rfl
  | cons a as ih => intro t; simp [stripCI, ih]

theorem stripCS_self (s : List Char) : ∀ t, stripCS s (s ++ t) = some t := by
  induction s with
  | nil => intro t; rfl
  | cons a as ih => intro t; simp [stripCS, ih]

theorem targetHostMatch_isHost (host l : List Char) (h : targetHostMatch host l = true) :
    isHostLine l = true := by
  unfold targetHostMatch at h
  unfold isHostLine
  cases hs : stripCI "Host".toList (l.dropWhile pySpace) with
  | none => rw [hs] at h; simp at h
  | some r =>
    rw [hs] at h
    cases r with
    | nil => simp at h
    | cons c cs =>
      simp only [Bool.and_eq_true] at h
      simp [h.1]

theorem tailMatchCI_of_lit (lit y : List Char) (h : litSpacesCI lit y = true) :
    tailMatchCI lit y = true := by
  cases y with
  | nil => simpa [tailMatchCI] using h
  | cons c cs => simp [tailMatchCI, h]

theorem tailMatchCS_of_lit (lit y : List Char) (h : litSpacesCS lit y = true) :
    tailMatchCS lit y = true := by
  cases y with
  | nil => simpa [tailMatchCS] using h
  | cons c cs => simp [tailMatchCS, h]

theorem targetHostMatch_self (name : List Char) :
    targetHostMatch name ("Host ".toList ++ (name ++ ['\n'])) = true := by
  have h1 : "Host ".toList ++ (name ++ ['\n']) =
      'H' :: 'o' :: 's' :: 't' :: ' ' :: (name ++ ['\n']) := rfl
  rw [h1]
  unfold targetHostMatch
  have h2 : List.dropWhile pySpace ('H' :: 'o' :: 's' :: 't' :: ' ' :: (name ++ ['\n'])) =
      'H' :: 'o' :: 's' :: 't' :: ' ' :: (name ++ ['\n']) := by
    simp [List.dropWhile, pySpace_H]
  rw [h2]
  have h3 : stripCI "Host".toList ('H' :: 'o' :: 's' :: 't' :: ' ' :: (name ++ ['\n'])) =
      some (' ' :: (name ++ ['\n'])) := by
    simp [stripCI]
  rw [h3]
  have h4 : tailMatchCI name (name ++ ['\n']) = true := by
    apply tailMatchCI_of_lit
    unfold litSpacesCI
    rw [stripCI_self]
    decide
  simp [h4, pySpace_sp]

theorem addHostMatch_self (name : List Char) :
    addHostMatch name ("Host ".toList ++ (name ++ ['\n'])) = true := by
  have h1 : "Host ".toList ++ (name ++ ['\n']) =
      'H' :: 'o' :: 's' :: 't' :: ' ' :: (name ++ ['\n']) := rfl
  rw [h1]
  unfold addHostMatch
  have h2 : List.dropWhile pySpace ('H' :: 'o' :: 's' :: 't' :: ' ' :: (name ++ ['\n'])) =
      'H' :: 'o' :: 's' :: 't' :: ' ' :: (name ++ ['\n']) := by
    simp [List.dropWhile, pySpace_H]
  rw [h2]
  have h3 : stripCS "Host".toList ('H' :: 'o' :: 's' :: 't' :: ' ' :: (name ++ ['\n'])) =
      some (' ' :: (name ++ ['\n'])) := by
    simp [stripCS]
  rw [h3]
  have h4 : tailMatchCS name (name ++ ['\n']) = true := by
    apply tailMatchCS_of_lit
    unfold litSpacesCS
    rw [stripCS_self]
    decide
  simp [h4, pySpace_sp]

/-! ## Lemmas about the update scan -/

theorem updGo_found (host ip : List Char) :
    ∀ (ls : List (List Char)) (f t : Bool),
      (updGo host ip f t ls).1.1 =
        (f || ls.any (fun l => isHostLine l && targetHostMatch host l)) := by
  intro ls
  induction ls with
  | nil => intro f t; simp [updGo]
  | cons l ls ih =>
    intro f t
    simp only [updGo, List.any_cons]
    rw [ih]
    cases hH : isHostLine l <;> simp [hH, Bool.or_assoc]

theorem updGo_noRewrite_eq (host ip : List Char) :
    ∀ (ls : List (List Char)) (f t : Bool), noRewrite host t ls = true →
      (updGo host ip f t ls).2 = ls := by
  intro ls
  induction ls with
  | nil => intro f t _; rfl
  | cons l ls ih =>
    intro f t h
    simp only [noRewrite, Bool.and_eq_true, Bool.not_eq_true'] at h
    simp [updGo, h.1, ih _ _ h.2]

theorem updGo_len (host ip : List Char) :
    ∀ (ls : List (List Char)) (f t : Bool), (updGo host ip f t ls).2.length = ls.length := by
  intro ls
  induction ls with
  | nil => intro f t; rfl
  | cons l ls ih => intro f t; simp [updGo, ih]

theorem updGo_getD (host ip : List Char) :
    ∀ (ls : List (List Char)) (f t : Bool) (i : Nat), i < ls.length →
      ((updGo host ip f t ls).2).getD i [] =
        (if inTargetFrom host t ls i && isHostNameLineCI (ls.getD i []) then
          rewriteLine ip (ls.getD i []) else ls.getD i []) := by
  intro ls
  induction ls with
  | nil => intro f t i h; simp at h
  | cons l ls ih =>
    intro f t i h
    cases i with
    | zero =>
      simp only [updGo, List.getD_cons_zero, inTargetFrom]
      cases hc : (updState host t l && isHostNameLineCI l) <;> simp [hc]
    | succ n =>
      simp only [updGo, List.getD_cons_succ, inTargetFrom]
      exact ih _ _ n (by simpa using Nat.lt_of_succ_lt_succ h)

theorem updGo_append (host ip : List Char) :
    ∀ (xs ys : List (List Char)) (f t : Bool),
      updGo host ip f t (xs ++ ys) =
        ((updGo host ip (updGo host ip f t xs).1.1 (updGo host ip f t xs).1.2 ys).1,
         (updGo host ip f t xs).2 ++
           (updGo host ip (updGo host ip f t xs).1.1 (updGo host ip f t xs).1.2 ys).2) := by
  intro xs
  induction xs with
  | nil => intro ys f t; simp [updGo]
  | cons l ls ih =>
    intro ys f t
    simp only [List.cons_append, updGo, List.append_eq]
    rw [ih]

/-! ## Case-insensitivity: the CI matchers depend on the pattern only
through its lowercasing -/

theorem stripCI_lower (h₁ : List Char) :
    ∀ (h₂ : List Char), h₁.map Char.toLower = h₂.map Char.toLower →
      ∀ s, stripCI h₁ s = stripCI h₂ s := by
  induction h₁ with
  | nil =>
    intro h₂ hl s
    have : h₂ = [] := by simpa using hl.symm
    rw [this]
  | cons a as ih =>
    intro h₂ hl s
    cases h₂ with
    | nil => simp at hl
    | cons b bs =>
      simp only [List.map_cons, List.cons.injEq] at hl
      cases s with
      | nil => rfl
      | cons c cs => simp [stripCI, hl.1, ih bs hl.2 cs]

theorem litSpacesCI_lower (h₁ h₂ : List Char)
    (hl : h₁.map Char.toLower = h₂.map Char.toLower) (y : List Char) :
    litSpacesCI h₁ y = litSpacesCI h₂ y := by
  unfold litSpacesCI
  rw [stripCI_lower h₁ h₂ hl y]

theorem tailMatchCI_lower (h₁ h₂ : List Char)
    (hl : h₁.map Char.toLower = h₂.map Char.toLower) :
    ∀ y, tailMatchCI h₁ y = tailMatchCI h₂ y := by
  intro y
  induction y with
  | nil => simp [tailMatchCI, litSpacesCI_lower h₁ h₂ hl]
  | cons c cs ih => simp [tailMatchCI, litSpacesCI_lower h₁ h₂ hl, ih]

theorem targetHostMatch_lower (h₁ h₂ : List Char)
    (hl : h₁.map Char.toLower = h₂.map Char.toLower) (l : List Char) :
    targetHostMatch h₁ l = targetHostMatch h₂ l := by
  unfold targetHostMatch
  cases hs : stripCI "Host".toList (l.dropWhile pySpace) with
  | none => rfl
  | some r =>
    cases r with
    | nil => rfl
    | cons c cs => simp [tailMatchCI_lower h₁ h₂ hl]

theorem updGo_lower (h₁ h₂ ip : List Char)
    (hl : h₁.map Char.toLower = h₂.map Char.toLower) :
    ∀ (ls : List (List Char)) (f t : Bool), updGo h₁ ip f t ls = updGo h₂ ip f t ls := by
  intro ls
  induction ls with
  | nil => intro f t; rfl
  | cons l ls ih =>
    intro f t
    simp only [updGo, updState, targetHostMatch_lower h₁ h₂ hl l, ih]

theorem update_hostname_lower (h₁ h₂ ip : List Char)
    (hl : h₁.map Char.toLower = h₂.map Char.toLower) (lines : List (List Char)) :
    update_hostname h₁ ip lines = update_hostname h₂ ip lines := by
  unfold update_hostname
  rw [updGo_lower h₁ h₂ ip hl]

/-! ## Evaluating the scan on the lines of an appended block -/

theorem isHostLine_nl : isHostLine (['\n'] : List Char) = false := by decide

theorem isHNCI_nl : isHostNameLineCI (['\n'] : List Char) = false := by decide

theorem isHostLine_hostpref (rest : List Char) : isHostLine ("Host ".toList ++ rest) = true := rfl

theorem isHNCI_hostpref (rest : List Char) :
    isHostNameLineCI ("Host ".toList ++ rest) = false := rfl

theorem isHostLine_hn2 : isHostLine "    HostName 1.1.1.1\n".toList = false := by decide

theorem isHNCI_hn2 : isHostNameLineCI "    HostName 1.1.1.1\n".toList = true := by decide

theorem rewriteLine_entry (ip : List Char) :
    rewriteLine ip "    HostName 1.1.1.1\n".toList = "    HostName ".toList ++ (ip ++ ['\n']) := rfl

theorem isHostLine_idf (rest : List Char) :
    isHostLine ("    IdentityFile ".toList ++ rest) = false := rfl

theorem isHNCI_idf (rest : List Char) :
    isHostNameLineCI ("    IdentityFile ".toList ++ rest) = false := rfl

theorem isHostLine_ukhf (rest : List Char) :
    isHostLine ("    UserKnownHostsFile=".toList ++ rest) = false := rfl

theorem isHNCI_ukhf (rest : List Char) :
    isHostNameLineCI ("    UserKnownHostsFile=".toList ++ rest) = false := rfl

theorem isHostLine_ionly : isHostLine "    IdentitiesOnly=yes\n".toList = false := by decide

theorem isHNCI_ionly : isHostNameLineCI "    IdentitiesOnly=yes\n".toList = false := by decide

theorem isHostLine_chip : isHostLine "    CheckHostIP=no\n".toList = false := by decide

theorem isHNCI_chip : isHostNameLineCI "    CheckHostIP=no\n".toList = false := by decide

theorem isHostLine_user (rest : List Char) :
    isHostLine ("    User ".toList ++ rest) = false := rfl

theorem isHNCI_user (rest : List Char) :
    isHostNameLineCI ("    User ".toList ++ rest) = false := rfl

/-- Running the update scan over a freshly appended block: whatever the
incoming state, the block's Host line is found and matched, its
placeholder HostName line is rewritten to `ip`, and every other line of
the block passes through unchanged. -/
theorem updGo_entry (host ip name user idf khf : List Char) (f t : Bool)
    (h1 : targetHostMatch host ("Host ".toList ++ (name ++ ['\n'])) = true) :
    updGo host ip f t (entryLines name user idf khf) =
      ((true, true), entryOut name ip user idf khf) := by
  simp only [entryLines, updGo, updState, entryOut, restEntryOut,
    isHostLine_nl, isHNCI_nl, isHostLine_hostpref, isHNCI_hostpref, h1,
    isHostLine_hn2, isHNCI_hn2, rewriteLine_entry,
    isHostLine_idf, isHNCI_idf, isHostLine_ukhf, isHNCI_ukhf,
    isHostLine_ionly, isHNCI_ionly, isHostLine_chip, isHNCI_chip,
    isHostLine_user, isHNCI_user,
    cond_true, cond_false, Bool.or_true, Bool.and_false, Bool.false_and,
    Bool.true_and, Bool.and_true, Bool.and_self]

/-! ## The listing scan agrees with its index-wise specification -/

theorem listGo_eq_spec :
    ∀ (lines : List (List Char)) (cur : Option (List Char)),
      listGo cur lines = listSpecFrom cur lines := by
  intro lines
  induction lines with
  | nil => intro cur; rfl
  | cons l ls ih =>
    intro cur
    unfold listSpecFrom
    rw [List.length_cons, List.range_succ_eq_map, List.filterMap_cons, List.filterMap_map]
    have hfun : ((fun i =>
        match hostNameCapture ((l :: ls).getD i []), curFrom cur (l :: ls) i with
        | some ip, some h => some (h ++ (" -> ".toList ++ ip))
        | _, _ => none) ∘ Nat.succ)
        = (fun i => match hostNameCapture (ls.getD i []), curFrom (updCur cur l) ls i with
        | some ip, some h => some (h ++ (" -> ".toList ++ ip))
        | _, _ => none) := by
      funext i; rfl
    rw [hfun]
    have htail : (List.range ls.length).filterMap
        (fun i => match hostNameCapture (ls.getD i []), curFrom (updCur cur l) ls i with
        | some ip, some h => some (h ++ (" -> ".toList ++ ip))
        | _, _ => none) = listGo (updCur cur l) ls := by
      rw [ih (updCur cur l)]; rfl
    rw [htail]
    simp only [List.getD_cons_zero]
    cases hnc : hostNameCapture l with
    | none => simp only [listGo, hnc]
    | some ip =>
      have hcf : curFrom cur (l :: ls) 0 = updCur cur l := rfl
      rw [hcf]
      cases hcur : updCur cur l with
      | none => simp only [listGo, hnc, hcur]
      | some h => simp only [listGo, hnc, hcur]

/-! ## Remaining small helpers -/

theorem getD_append_len {α : Type} (d : α) :
    ∀ (xs ys : List α) (i : Nat), (xs ++ ys).getD (xs.length + i) d = ys.getD i d := by
  intro xs
  induction xs with
  | nil => intro ys i; simp
  | cons a as ih =>
    intro ys i
    have hx : (a :: as).length + i = (as.length + i) + 1 := by
      simp [List.length_cons]; omega
    rw [List.cons_append, hx, List.getD_cons_succ, ih]

theorem any_eq_false_of_all_not {α : Type} (p : α → Bool) (l : List α)
    (h : l.all (fun x => !(p x)) = true) : l.any p = false := by
  cases ha : l.any p with
  | false => rfl
  | true =>
    rw [List.any_eq_true] at ha
    obtain ⟨x, hx, hp⟩ := ha
    rw [List.all_eq_true] at h
    have hnx := h x hx
    rw [hp] at hnx
    simp at hnx

/-! ## Claims -/

/-- C1: on the two-block config `Host a`/`HostName 10.0.0.1`,
`Host b`/`HostName 10.0.0.2`, `update_hostname("a", "2.2.2.2")` succeeds
and produces a file in which only the HostName line of block `a` changed
(to 2.2.2.2); block `b`'s lines are byte-identical. -/
theorem update_changes_only_target_block :
    update_hostname "a".toList "2.2.2.2".toList cfgAB =
      some ["Host a\n".toList, "HostName 2.2.2.2\n".toList,
            "Host b\n".toList, "HostName 10.0.0.2\n".toList] := by decide

/-- C2 counterexample: in a block with two HostName lines, the second
HostName line is rewritten as well — the claim that every subsequent
HostName line in the target block is left unchanged fails on this input. -/
theorem update_rewrites_second_hostname_line :
    update_hostname "a".toList "9.9.9.9".toList
      ["Host a\n".toList, "HostName 1.1.1.1\n".toList, "HostName 2.2.2.2\n".toList] =
      some ["Host a\n".toList, "HostName 9.9.9.9\n".toList, "HostName 9.9.9.9\n".toList] ∧
    ("HostName 9.9.9.9\n".toList : List Char) ≠ "HostName 2.2.2.2\n".toList := by decide

/-- C2 (amended): `update_hostname` rewrites every HostName line inside
the target block — not only the first — to the new IP (via the
case-sensitive substitution, which preserves the line's leading
whitespace and the `HostName` keyword with its following whitespace);
every line outside the target block, and every non-HostName line, is
unchanged.  Stated index-wise over the output. -/
theorem update_hostname_rewrites_all (host ip : List Char) (lines out : List (List Char))
    (h : update_hostname host ip lines = some out) (i : Nat) (hi : i < lines.length) :
    out.getD i [] =
      (if inTargetAt host lines i && isHostNameLineCI (lines.getD i []) then
        rewriteLine ip (lines.getD i []) else lines.getD i []) := by
  unfold update_hostname at h
  by_cases hf : (updGo host ip false false lines).1.1 = true
  · rw [if_pos hf] at h
    have hout : (updGo host ip false false lines).2 = out := by
      simpa using h
    rw [← hout]
    unfold inTargetAt
    exact updGo_getD host ip lines false false i hi
  · rw [if_neg hf] at h
    exact absurd h (by simp)

/-- Witness for the amended C2 theorem at a concrete three-line config. -/
theorem update_hostname_rewrites_all_witness :
    (["Host a\n".toList, "HostName 9.9.9.9\n".toList, "HostName 9.9.9.9\n".toList] :
        List (List Char)).getD 2 [] =
      (if inTargetAt "a".toList
            ["Host a\n".toList, "HostName 1.1.1.1\n".toList, "HostName 2.2.2.2\n".toList] 2 &&
          isHostNameLineCI
            (["Host a\n".toList, "HostName 1.1.1.1\n".toList, "HostName 2.2.2.2\n".toList].getD 2 []) then
        rewriteLine "9.9.9.9".toList
          (["Host a\n".toList, "HostName 1.1.1.1\n".toList, "HostName 2.2.2.2\n".toList].getD 2 [])
      else ["Host a\n".toList, "HostName 1.1.1.1\n".toList, "HostName 2.2.2.2\n".toList].getD 2 []) :=
  update_hostname_rewrites_all "a".toList "9.9.9.9".toList
    ["Host a\n".toList, "HostName 1.1.1.1\n".toList, "HostName 2.2.2.2\n".toList]
    ["Host a\n".toList, "HostName 9.9.9.9\n".toList, "HostName 9.9.9.9\n".toList]
    (by decide) 2 (by decide)

/-- C3: if no line of the file matches the target-host pattern for
`host` (exact case-insensitive, no trailing tokens), `update_hostname`
fails ("Host not found") and performs no write: the core scan yields no
file to write, and the file state is unchanged. -/
theorem update_hostname_not_found (host ip : List Char) (lines : List (List Char))
    (h : ∀ l ∈ lines, targetHostMatch host l = false) :
    update_hostname host ip lines = none ∧
    update_hostname_fs host ip (some lines) = (false, some lines) := by
  have hf : (updGo host ip false false lines).1.1 = false := by
    rw [updGo_found]
    simp only [Bool.false_or]
    cases ha : lines.any (fun l => isHostLine l && targetHostMatch host l) with
    | false => rfl
    | true =>
      rw [List.any_eq_true] at ha
      obtain ⟨l, hl, hp⟩ := ha
      rw [Bool.and_eq_true] at hp
      rw [h l hl] at hp
      exact absurd hp.2 (by simp)
  have h1 : update_hostname host ip lines = none := by
    unfold update_hostname
    simp [hf]
  exact ⟨h1, by simp [update_hostname_fs, h1]⟩

/-- Witness for C3: host `c` is not declared in the two-block config. -/
theorem update_hostname_not_found_witness :
    update_hostname "c".toList "9.9.9.9".toList cfgAB = none ∧
    update_hostname_fs "c".toList "9.9.9.9".toList (some cfgAB) = (false, some cfgAB) :=
  update_hostname_not_found "c".toList "9.9.9.9".toList cfgAB (by decide)

/-- C4: if some line matches the target host but the scan never meets a
HostName line while inside a target block, `update_hostname` writes the
file back with identical content (a no-op write) and still reports
success. -/
theorem update_hostname_no_hostname_noop (host ip : List Char) (lines : List (List Char))
    (hfound : lines.any (fun l => targetHostMatch host l) = true)
    (hnr : noRewrite host false lines = true) :
    update_hostname host ip lines = some lines ∧
    update_hostname_fs host ip (some lines) = (true, some lines) := by
  have hf : (updGo host ip false false lines).1.1 = true := by
    rw [updGo_found]
    simp only [Bool.false_or]
    rw [List.any_eq_true] at hfound ⊢
    obtain ⟨l, hl, hp⟩ := hfound
    refine ⟨l, hl, ?_⟩
    have hp' : targetHostMatch host l = true := hp
    rw [Bool.and_eq_true]
    exact ⟨targetHostMatch_isHost host l hp', hp'⟩
  have hout := updGo_noRewrite_eq host ip lines false false hnr
  have h1 : update_hostname host ip lines = some lines := by
    unfold update_hostname
    simp [hf, hout]
  exact ⟨h1, by simp [update_hostname_fs, h1]⟩

/-- Witness for C4: block `a` exists but holds no HostName line. -/
theorem update_hostname_no_hostname_noop_witness :
    update_hostname "a".toList "9.9.9.9".toList ["Host a\n".toList, "User u\n".toList] =
      some ["Host a\n".toList, "User u\n".toList] ∧
    update_hostname_fs "a".toList "9.9.9.9".toList
        (some ["Host a\n".toList, "User u\n".toList]) =
      (true, some ["Host a\n".toList, "User u\n".toList]) :=
  update_hostname_no_hostname_noop "a".toList "9.9.9.9".toList
    ["Host a\n".toList, "User u\n".toList] (by decide) (by decide)

/-- C5 counterexample: `update_hostname`'s target test matches argument
`A` against the declaration `Host a` (case-insensitive), but `add_host`'s
already-exists check does not (its regex has no IGNORECASE flag), so
`add_host "A"` happily appends a second block — the three operations do
not all treat case-variant names as the same block name. -/
theorem add_host_check_case_sensitive_cex :
    targetHostMatch "A".toList "Host a\n".toList = true ∧
    addHostMatch "A".toList "Host a\n".toList = false ∧
    add_host "A".toList "u".toList "i".toList "k".toList ["Host a\n".toList] =
      some (["Host a\n".toList] ++ entryLines "A".toList "u".toList "i".toList "k".toList) := by
  decide

/-- C5 (amended): `update_hostname`'s target-block test is
case-insensitive in the host argument (names with equal lowercasings are
interchangeable), and `list_hostnames`' Host detection is
case-insensitive in the line; but `add_host`'s already-exists check is
case-sensitive and treats case-variant names as distinct. -/
theorem update_ci_add_cs :
    (∀ h₁ h₂ ip lines, h₁.map Char.toLower = h₂.map Char.toLower →
      update_hostname h₁ ip lines = update_hostname h₂ ip lines) ∧
    (∀ rest, hostCapture ("HOST ".toList ++ rest) = hostCapture ("Host ".toList ++ rest)) ∧
    addHostMatch "a".toList "Host a\n".toList = true ∧
    addHostMatch "A".toList "Host a\n".toList = false :=
  ⟨fun h₁ h₂ ip lines hl => update_hostname_lower h₁ h₂ ip hl lines,
   fun _ => rfl, by decide, by decide⟩

/-- Witness for the amended C5 theorem: `A` and `a` drive
`update_hostname` identically. -/
theorem update_ci_add_cs_witness :
    update_hostname "A".toList "9.9.9.9".toList cfgAB =
      update_hostname "a".toList "9.9.9.9".toList cfgAB :=
  update_ci_add_cs.1 "A".toList "a".toList "9.9.9.9".toList cfgAB (by decide)

/-- C6: on a file with no line matching `Host name` (anchored,
whitespace-tolerant, as `add_host` checks it), `add_host` succeeds and
appends a block containing the placeholder `HostName 1.1.1.1` line and a
`User` line filled from the settings; a subsequent
`update_hostname name ip` on the result succeeds and finds that HostName
line to rewrite (position `lines.length + 2` of the output carries the
new IP); and a second `add_host name` on the result fails and performs no
write. -/
theorem add_host_then_update (name user idf khf ip : List Char) (lines : List (List Char))
    (hwf : wfLines lines = true)
    (hname : noNl name = true) (huser : noNl user = true)
    (hidf : noNl idf = true) (hkhf : noNl khf = true)
    (hnew : lines.all (fun l => !(addHostMatch name l)) = true) :
    add_host name user idf khf lines = some (lines ++ entryLines name user idf khf) ∧
    "    HostName 1.1.1.1\n".toList ∈ entryLines name user idf khf ∧
    ("    User ".toList ++ (user ++ ['\n'])) ∈ entryLines name user idf khf ∧
    (∃ out, update_hostname name ip (lines ++ entryLines name user idf khf) = some out ∧
      out.getD (lines.length + 2) [] = "    HostName ".toList ++ (ip ++ ['\n'])) ∧
    add_host name user idf khf (lines ++ entryLines name user idf khf) = none := by
  have hany : lines.any (fun l => addHostMatch name l) = false :=
    any_eq_false_of_all_not _ lines hnew
  have hupd : update_hostname name ip (lines ++ entryLines name user idf khf) =
      some ((updGo name ip false false lines).2 ++ entryOut name ip user idf khf) := by
    unfold update_hostname
    rw [updGo_append, updGo_entry name ip name user idf khf _ _ (targetHostMatch_self name)]
    rfl
  refine ⟨?_, ?_, ?_, ?_, ?_⟩
  · have hc : ¬((lines.any fun l => addHostMatch name l) = true) := by
      rw [hany]; simp
    unfold add_host
    rw [if_neg hc]
  · simp [entryLines]
  · simp [entryLines]
  · refine ⟨(updGo name ip false false lines).2 ++ entryOut name ip user idf khf, hupd, ?_⟩
    have hlen : (updGo name ip false false lines).2.length = lines.length :=
      updGo_len name ip lines false false
    rw [← hlen, getD_append_len]
    rfl
  · have hmem : (lines ++ entryLines name user idf khf).any (fun l => addHostMatch name l) = true := by
      rw [List.any_eq_true]
      refine ⟨"Host ".toList ++ (name ++ ['\n']), ?_, addHostMatch_self name⟩
      simp [entryLines]
    unfold add_host
    rw [if_pos hmem]

/-- Witness for C6 at a concrete file and names. -/
theorem add_host_then_update_witness :
    add_host "c".toList "u".toList "i".toList "k".toList ["Host a\n".toList] =
      some (["Host a\n".toList] ++ entryLines "c".toList "u".toList "i".toList "k".toList) ∧
    "    HostName 1.1.1.1\n".toList ∈ entryLines "c".toList "u".toList "i".toList "k".toList ∧
    ("    User ".toList ++ ("u".toList ++ ['\n'])) ∈
      entryLines "c".toList "u".toList "i".toList "k".toList ∧
    (∃ out, update_hostname "c".toList "7.7.7.7".toList
        (["Host a\n".toList] ++ entryLines "c".toList "u".toList "i".toList "k".toList) =
          some out ∧
      out.getD (["Host a\n".toList].length + 2) [] =
        "    HostName ".toList ++ ("7.7.7.7".toList ++ ['\n'])) ∧
    add_host "c".toList "u".toList "i".toList "k".toList
      (["Host a\n".toList] ++ entryLines "c".toList "u".toList "i".toList "k".toList) = none :=
  add_host_then_update "c".toList "u".toList "i".toList "k".toList "7.7.7.7".toList
    ["Host a\n".toList] (by decide) (by decide) (by decide) (by decide) (by decide) (by decide)

/-- C7: on the two-block config the listing is exactly
`["a -> 10.0.0.1", "b -> 10.0.0.2"]` in file order; and in general the
scan equals its index-wise specification: line `i` emits one
`"{host} -> {ip}"` pair exactly when it is a HostName line and a current
host is in effect there — so multiple HostName lines under one host each
emit a separate pair. -/
theorem list_hostnames_pairs :
    list_hostnames cfgAB = ["a -> 10.0.0.1".toList, "b -> 10.0.0.2".toList] ∧
    ∀ lines, list_hostnames lines = listSpecFrom none lines :=
  ⟨by decide, fun lines => listGo_eq_spec lines none⟩

/-- C8: starting from an existing config with no `Host d` block, with the
cloud calls modelled as succeeding (start text free of "Error", public IP
`5.5.5.5`), `start_vm "d"` returns success and the final file contains a
`Host d` block whose HostName line carries 5.5.5.5. -/
theorem start_vm_end_to_end (startRes user idf khf : List Char) (lines : List (List Char))
    (hs : hasErr startRes = false)
    (hwf : wfLines lines = true)
    (huser : noNl user = true) (hidf : noNl idf = true) (hkhf : noNl khf = true)
    (hnew : lines.all (fun l => !(addHostMatch "d".toList l)) = true) :
    ∃ pre, start_vm startRes "5.5.5.5".toList "d".toList user idf khf (some lines) =
      (true, some (pre ++ ("Host d\n".toList :: ("    HostName 5.5.5.5\n".toList ::
        restEntryOut user idf khf)))) := by
  have hany : lines.any (fun l => addHostMatch "d".toList l) = false :=
    any_eq_false_of_all_not _ lines hnew
  have hip : hasErr "5.5.5.5".toList = false := by decide
  have hadd : add_host_fs "d".toList user idf khf (some lines) =
      PyResult.ok (true, some (lines ++ entryLines "d".toList user idf khf)) := by
    have hc : ¬((lines.any fun l => addHostMatch "d".toList l) = true) := by
      rw [hany]; simp
    simp only [add_host_fs, add_host]
    rw [if_neg hc]
  have hupd : update_hostname "d".toList "5.5.5.5".toList
      (lines ++ entryLines "d".toList user idf khf) =
        some ((updGo "d".toList "5.5.5.5".toList false false lines).2 ++
          entryOut "d".toList "5.5.5.5".toList user idf khf) := by
    unfold update_hostname
    rw [updGo_append,
      updGo_entry "d".toList "5.5.5.5".toList "d".toList user idf khf _ _
        (targetHostMatch_self "d".toList)]
    rfl
  have e1 : ("Host ".toList ++ ("d".toList ++ ['\n'])) = "Host d\n".toList := rfl
  have e2 : ("    HostName ".toList ++ ("5.5.5.5".toList ++ ['\n'])) =
      "    HostName 5.5.5.5\n".toList := rfl
  refine ⟨(updGo "d".toList "5.5.5.5".toList false false lines).2 ++ [['\n']], ?_⟩
  unfold start_vm startVmTail
  rw [if_neg (by simp [hs]), if_neg (by decide), hadd]
  simp only [update_hostname_fs, hupd, entryOut]
  rw [e1, e2]
  simp [List.append_assoc]

/-- Witness for C8 at a concrete oracle and file. -/
theorem start_vm_end_to_end_witness :
    ∃ pre, start_vm "Started.".toList "5.5.5.5".toList "d".toList "u".toList "i".toList
        "k".toList (some ["Host a\n".toList]) =
      (true, some (pre ++ ("Host d\n".toList :: ("    HostName 5.5.5.5\n".toList ::
        restEntryOut "u".toList "i".toList "k".toList)))) :=
  start_vm_end_to_end "Started.".toList "u".toList "i".toList "k".toList ["Host a\n".toList]
    (by decide) (by decide) (by decide) (by decide) (by decide) (by decide)

/-- C9 counterexample: with a missing config file, `add_host` opens the
file for reading without an existence check and so raises
`FileNotFoundError` (modelled as `PyResult.exn`) instead of returning a
failure result. -/
theorem add_host_missing_file_raises :
    add_host_fs "a".toList "u".toList "i".toList "k".toList none = PyResult.exn := rfl

/-- C9 (amended): on a missing config file, `list_hostnames` reports the
error and returns the empty list and `update_hostname` reports it and
returns failure, both without writing; `add_host` instead raises
`FileNotFoundError`, which its callers catch and convert to a failure. -/
theorem missing_file_behavior (host ip name user idf khf : List Char) :
    list_hostnames_fs none = [] ∧
    update_hostname_fs host ip none = (false, none) ∧
    add_host_fs name user idf khf none = PyResult.exn :=
  ⟨rfl, rfl, rfl⟩

/-- C10: with the external subprocess modelled as an oracle
`(exit status, stdout, stderr)`, `run_command` returns
`"Error: " ++ stderr.strip()` on a non-zero exit (instead of raising) and
`stdout.strip()` on a zero exit; the caller `start_vm` detects failure of
the start step exactly by the substring `"Error"` in the returned text
(so a non-zero exit always aborts it, and on a zero exit the decision
depends only on that substring test). -/
theorem run_command_contract (o : CmdOutcome) (ipRes name user idf khf : List Char)
    (file : Option (List (List Char))) :
    (o.exitCode ≠ 0 →
      run_command o = "Error: ".toList ++ pyStrip o.errText ∧
      hasErr (run_command o) = true ∧
      start_vm (run_command o) ipRes name user idf khf file = (false, file)) ∧
    (o.exitCode = 0 →
      run_command o = pyStrip o.outText ∧
      start_vm (run_command o) ipRes name user idf khf file =
        (if hasErr (pyStrip o.outText) = true then (false, file)
         else startVmTail ipRes name user idf khf file)) := by
  constructor
  · intro h
    have hr : run_command o = "Error: ".toList ++ pyStrip o.errText := by
      unfold run_command
      rw [if_neg h]
    have he : hasErr (run_command o) = true := by
      rw [hr]; rfl
    refine ⟨hr, he, ?_⟩
    unfold start_vm
    rw [if_pos he]
  · intro h
    have hr : run_command o = pyStrip o.outText := by
      unfold run_command
      rw [if_pos h]
    refine ⟨hr, ?_⟩
    unfold start_vm
    rw [hr]

/-- Witness for C10 at a concrete failing subprocess outcome. -/
theorem run_command_contract_witness :
    run_command ⟨1, "ok".toList, " boom \n".toList⟩ =
      "Error: ".toList ++ pyStrip " boom \n".toList ∧
    hasErr (run_command ⟨1, "ok".toList, " boom \n".toList⟩) = true ∧
    start_vm (run_command ⟨1, "ok".toList, " boom \n".toList⟩) "5.5.5.5".toList "d".toList
        "u".toList "i".toList "k".toList (some cfgAB) = (false, some cfgAB) :=
  (run_command_contract ⟨1, "ok".toList, " boom \n".toList⟩ "5.5.5.5".toList "d".toList
    "u".toList "i".toList "k".toList (some cfgAB)).1 (by decide)

end Vmup
